import Mathlib

/-
Verification of the packaging pipeline of `platformPackager.ts`
(electron-builder library, `PlatformPackager` class).

The TypeScript source is shallowly embedded: pure functions become Lean
functions, the stateful `doPack` pipeline becomes an explicit event trace
parameterised by the time at which the shared cancellation token becomes
set, the filesystem and the asar archive checker become explicit
environment records, and fallible code returns `Except String`.
-/

set_option autoImplicit false

namespace EB

/-! ## Architectures and compression levels (builder-util `Arch`, `CompressionLevel`) -/

/-- The `Arch` enum of builder-util; `Arch[arch]` yields the constructor name. -/
inductive Arch where
  | ia32
  | x64
  | armv7l
  | arm64
deriving DecidableEq

/-- The string `Arch[arch]` produced by indexing the TypeScript enum with a value. -/
def archToString : Arch → String
  | Arch.ia32 => "ia32"
  | Arch.x64 => "x64"
  | Arch.armv7l => "armv7l"
  | Arch.arm64 => "arm64"

/-- CompressionLevel is one of the three literal strings "maximum" | "normal" | "store". -/
inductive CompressionLevel where
  | store
  | normal
  | maximum
deriving DecidableEq

/-- A TypeScript value of type `T | null | undefined`: `undef` models an absent
field, `null` an explicitly null one. -/
inductive NullOr (α : Type) where
  | undef
  | null
  | val (a : α)
deriving DecidableEq

/-- The `compression` getter: `platformSpecificBuildOptions.compression` explicitly
`null` requests the default; otherwise `compression || this.config.compression || "normal"`
(compression levels are non-empty strings, so `||` here is null/undefined fallthrough). -/
def compression (platformCompression : NullOr CompressionLevel)
    (configCompression : NullOr CompressionLevel) : CompressionLevel :=
  match platformCompression with
  | NullOr.null => CompressionLevel.normal
  | NullOr.val c => c
  | NullOr.undef =>
    match configCompression with
    | NullOr.val c => c
    | _ => CompressionLevel.normal

/-! ## Target scheduling (`packageInDistributableFormat`, `buildAsyncTargets`) -/

/-- A build target as seen by `packageInDistributableFormat`: its capability flag
and an identifier standing for its `build(appOutDir, arch)` call. -/
structure Target where
  id : Nat
  isAsyncSupported : Bool
deriving DecidableEq

/-- How `packageInDistributableFormat` schedules the targets of one batch. -/
inductive PackageSchedule where
  /-- Each listed build is added directly to the caller task manager, no wrapper task. -/
  | direct (builds : List Nat)
  /-- One wrapper task added to the caller task manager: inside it the `concurrent`
  builds are scheduled on a dedicated sub task manager and awaited to completion,
  and only then the `sequential` builds run one at a time, in this order. -/
  | wrapped (concurrent : List Nat) (sequential : List Nat)
deriving DecidableEq

/-- `buildAsyncTargets`: schedules `target.build` for every target whose
`isAsyncSupported` flag is set, in declaration order. -/
def buildAsyncTargets (targets : List Target) : List Nat :=
  (targets.filter fun t => t.isAsyncSupported).map fun t => t.id

/-- `packageInDistributableFormat`: if `targets.find(it => !it.isAsyncSupported) == null`
all builds go directly to the caller task manager; otherwise one wrapper task is added
in which the concurrency-safe targets run on a sub task manager, are awaited, and the
remaining targets are built sequentially in declaration order. -/
def packageInDistributableFormat (targets : List Target) : PackageSchedule :=
  if (targets.find? fun it => !it.isAsyncSupported).isNone then
    PackageSchedule.direct (buildAsyncTargets targets)
  else
    PackageSchedule.wrapped
      (buildAsyncTargets targets)
      ((targets.filter fun t => !t.isAsyncSupported).map fun t => t.id)

/-! ## Copy strategy and the combined transformer (`copyAppFiles`) -/

/-- A `FileTransformer`: maps a file path to transformed content, `none` meaning
"copy unchanged" (the TypeScript transformer returning `null`). -/
abbrev FileTx := String → Option String

/-- The `combinedTransformer` closure built in the `asarOptions == null` branch of
`copyAppFiles`: consult `transformerForExtraFiles` first when it exists, and fall
through to `transformer` when it is absent or returns `null`. -/
def combinedTransformer (transformerForExtraFiles : Option FileTx) (transformer : FileTx) : FileTx :=
  fun file =>
    match transformerForExtraFiles with
    | some t =>
      match t file with
      | some result => some result
      | none => transformer file
    | none => transformer file

/-- Options object accepted for `asar` in the configuration (the fields
`computeAsarOptions` inspects, plus one representative ordinary field). -/
structure AsarObjOpts where
  unpack : Option String
  unpackDir : Option String
  smartUnpack : Option Bool
deriving DecidableEq

/-- Which of the three mutually exclusive copy strategies `copyAppFiles` takes,
with the transformer used for the direct-copy strategy. -/
inductive CopyStrategy where
  /-- The application is already packed as an asar archive: pass-through copy. -/
  | prepackedAsar
  /-- Archiving disabled: direct filesystem copy, every file passed through `tx`. -/
  | direct (tx : FileTx)
  /-- Archiving enabled: transform every entry, then assemble the asar archive. -/
  | archived

/-- The branch structure of `copyAppFiles`: `isPrepackedAppAsar` first, then the
`asarOptions == null` branch with its combined transformer, else archive assembly. -/
def copyAppFilesStrategy (isPrepackedAppAsar : Bool) (asarOptions : Option AsarObjOpts)
    (transformerForExtraFiles : Option FileTx) (transformer : FileTx) : CopyStrategy :=
  if isPrepackedAppAsar then
    CopyStrategy.prepackedAsar
  else if asarOptions.isNone then
    CopyStrategy.direct (combinedTransformer transformerForExtraFiles transformer)
  else
    CopyStrategy.archived

/-! ## `computeAsarOptions` -/

/-- A TypeScript `asar` configuration value: absent, null, boolean, or an object. -/
inductive AsarValue where
  | undef
  | null
  | bool (b : Bool)
  | obj (o : AsarObjOpts)
deriving DecidableEq

/-- The inputs `computeAsarOptions` reads: the framework kind, presence of the two
deprecated top-level keys, and the platform-specific and top-level `asar` values. -/
structure AsarConfigInput where
  isElectronBasedFramework : Bool
  deprecatedAsarUnpack : Bool
  deprecatedAsarUnpackDir : Bool
  platformAsar : AsarValue
  configAsar : AsarValue
deriving DecidableEq

/-- The deprecation message built by the local `errorMessage` helper (the doubled
"is deprecated" is present in the source). -/
def asarDeprecatedMessage (name : String) : String :=
  name ++ " is deprecated is deprecated and not supported — please use asarUnpack"

/-- The `{}` result returned when asar is absent or `true`. -/
def emptyAsarOptions : AsarObjOpts :=
  { unpack := none, unpackDir := none, smartUnpack := none }

/-- The value `platformSpecific == null ? this.config.asar : platformSpecific`
(loose `== null` covers both null and undefined). -/
def effectiveAsar (c : AsarConfigInput) : AsarValue :=
  match c.platformAsar with
  | AsarValue.undef => c.configAsar
  | AsarValue.null => c.configAsar
  | AsarValue.bool b => AsarValue.bool b
  | AsarValue.obj o => AsarValue.obj o

/-- `computeAsarOptions`: non-Electron frameworks return null at once; then the two
deprecated top-level keys raise; then the effective asar value is dispatched:
`false` returns null (after a warning, not modelled), null/undefined/`true` return
`{}`, and an object raises if it carries `unpackDir` or `unpack` (checked in that
order) and otherwise is returned as a copy (`deepAssign({}, result)`). -/
def computeAsarOptions (c : AsarConfigInput) : Except String (Option AsarObjOpts) :=
  if !c.isElectronBasedFramework then
    Except.ok none
  else if c.deprecatedAsarUnpack then
    Except.error (asarDeprecatedMessage "asar-unpack")
  else if c.deprecatedAsarUnpackDir then
    Except.error (asarDeprecatedMessage "asar-unpack-dir")
  else
    match effectiveAsar c with
    | AsarValue.bool false => Except.ok none
    | AsarValue.undef => Except.ok (some emptyAsarOptions)
    | AsarValue.null => Except.ok (some emptyAsarOptions)
    | AsarValue.bool true => Except.ok (some emptyAsarOptions)
    | AsarValue.obj o =>
      if o.unpackDir.isSome then Except.error (asarDeprecatedMessage "asar.unpackDir")
      else if o.unpack.isSome then Except.error (asarDeprecatedMessage "asar.unpack")
      else Except.ok (some o)

/-- Whether an `Except` result is an error. -/
def isErr {α : Type} (e : Except String α) : Bool :=
  match e with
  | Except.error _ => true
  | Except.ok _ => false

/-! ## The `doPack` pipeline as an event trace

`doPack` is a linear async pipeline. We embed its control flow as the list of
side-effecting steps it performs. The shared cancellation token is modelled by
the time `setTime` at which it becomes set: the step with position `p` executes
while the token is set exactly when `setTime ≤ p` (the token is never reset).
Step positions in a full run are: 0 `prepareStage`, 1 `computeMatchers`,
2 `copyMainFiles`, 3 first checkpoint, 4 `beforeCopyExtraFilesHook`,
5 `copyExtraResources`, 6 `copyExtraFiles`, 7 second checkpoint,
8 `afterPackHook`, 9 `sanityCheck`, 10 `signApp`, 11 `afterSignHook`.
`sanityOk` tells whether the awaited sanity check succeeds; on failure the
pipeline aborts with its error before `signApp`. -/

/-- One observable pipeline step of `doPack`. -/
inductive PackEvent where
  /-- `framework.prepareApplicationStageDirectory`. -/
  | prepareStage
  /-- Computation of the extra-resource and extra-file matchers and their parsed patterns. -/
  | computeMatchers
  /-- The main file copy (`copyAppFiles` tasks awaited by `taskManager.awaitTasks()`). -/
  | copyMainFiles
  /-- A read of `this.info.cancellationToken.cancelled`, recording the value observed. -/
  | checkCancel (observed : Bool)
  /-- The `framework.beforeCopyExtraFiles` callback. -/
  | beforeCopyExtraFilesHook
  /-- `copyFiles(extraResourceMatchers, ...)`. -/
  | copyExtraResources
  /-- `copyFiles(extraFileMatchers, ...)`. -/
  | copyExtraFiles
  /-- `this.info.afterPack(packContext)`. -/
  | afterPackHook
  /-- `this.sanityCheckPackage(appOutDir, isAsar)`. -/
  | sanityCheck
  /-- `this.signApp(packContext, isAsar)`. -/
  | signApp
  /-- `this.info.afterSign(packContext)`. -/
  | afterSignHook
deriving DecidableEq

/-- Whether the cancellation token, set at time `setTime`, is observed as set by
the step at position `step`. -/
def cancelledAt (setTime step : Nat) : Bool :=
  decide (setTime ≤ step)

/-- The trace of side-effecting steps performed by one `doPack` run.
`prepackaged` is `this.packagerOptions.prepackaged != null`, which returns
before any step. The two `checkCancel` events are the only reads of the token:
the first right after the awaited main copy, the second right after the
extra-file copies; each returns early when it observes the token set. -/
def doPackTrace (prepackaged : Bool) (setTime : Nat) (sanityOk : Bool) : List PackEvent :=
  if prepackaged then
    []
  else if cancelledAt setTime 3 then
    [PackEvent.prepareStage, PackEvent.computeMatchers, PackEvent.copyMainFiles,
     PackEvent.checkCancel true]
  else if cancelledAt setTime 7 then
    [PackEvent.prepareStage, PackEvent.computeMatchers, PackEvent.copyMainFiles,
     PackEvent.checkCancel false, PackEvent.beforeCopyExtraFilesHook,
     PackEvent.copyExtraResources, PackEvent.copyExtraFiles, PackEvent.checkCancel true]
  else if sanityOk then
    [PackEvent.prepareStage, PackEvent.computeMatchers, PackEvent.copyMainFiles,
     PackEvent.checkCancel false, PackEvent.beforeCopyExtraFilesHook,
     PackEvent.copyExtraResources, PackEvent.copyExtraFiles, PackEvent.checkCancel false,
     PackEvent.afterPackHook, PackEvent.sanityCheck, PackEvent.signApp, PackEvent.afterSignHook]
  else
    [PackEvent.prepareStage, PackEvent.computeMatchers, PackEvent.copyMainFiles,
     PackEvent.checkCancel false, PackEvent.beforeCopyExtraFilesHook,
     PackEvent.copyExtraResources, PackEvent.copyExtraFiles, PackEvent.checkCancel false,
     PackEvent.afterPackHook, PackEvent.sanityCheck]

/-- Number of cancellation-token reads in a trace. -/
def checkCount (tr : List PackEvent) : Nat :=
  tr.countP fun e =>
    match e with
    | PackEvent.checkCancel _ => true
    | _ => false

/-! ## Paths and the filesystem environment (`sanityCheckPackage`, `checkFileInPackage`) -/

/-- A filesystem path, as the list of its `/`-separated components. -/
abbrev FPath := List String

/-- Split a character list at every separator, like the JavaScript `split`. -/
def splitChars (sep : Char) : List Char → List (List Char)
  | [] => [[]]
  | c :: rest =>
    match splitChars sep rest with
    | [] => [[c]]
    | h :: t => if c = sep then [] :: h :: t else (c :: h) :: t

/-- Split a path string into components on `/` (the `path.sep` of the model). -/
def splitPath (s : String) : FPath :=
  (splitChars '/' s.data).map fun cs => String.mk cs

/-- Whether `pat` occurs as a contiguous subsequence of `s` (substring test). -/
def containsSeq (pat s : List Char) : Bool :=
  s.tails.any fun t => pat.isPrefixOf t

/-- Whether a single path component contains `.asar` as a substring. -/
def hasAsarSub (component : String) : Bool :=
  containsSeq ".asar".data component.data

/-- The test `pathParsed.dir.includes(".asar")`: since `.asar` contains no
separator, the joined directory string contains it exactly when one of the
directory components does. -/
def dirIncludesAsar (dir : FPath) : Bool :=
  dir.any hasAsarSub

/-- The test `pathPart.endsWith(".asar")`. -/
def endsWithAsar (s : String) : Bool :=
  ".asar".data.isSuffixOf s.data

/-- The `pathSplit.some(...)` loop: `partWithAsarIndex` is assigned on every
iteration and the loop stops at the first component ending in `.asar`, so the
result is the first such index, or the last index when none matches. -/
def findAsarIndex (pathSplit : FPath) : Nat :=
  match pathSplit.findIdx? endsWithAsar with
  | some i => i
  | none => pathSplit.length - 1

/-- Join path components with `/` (components are already normalized). -/
def joinStr : FPath → String
  | [] => ""
  | [a] => a
  | a :: rest => a ++ "/" ++ joinStr rest

/-- A filesystem stat result (`fs.Stats` restricted to the two queries used). -/
structure Stat where
  isFile : Bool
  isDirectory : Bool
deriving DecidableEq

/-- The environment read by the sanity check: `statOrNull` over the filesystem,
and the asar archive checker. `inArchive` is modelled from the spec:
`checkFileInArchive` (asar file checker, outside this file) verifies that the
given inner path names a regular file inside the archive at the given path;
it is carried as a boolean oracle of the environment. -/
structure PackageFS where
  stat : FPath → Option Stat
  inArchive : FPath → String → Bool

/-- `checkFileInPackage`: in archived mode, check inside `resourcesDir/app.asar`;
otherwise, when the directory string of the file contains `.asar`, split off the
archive part and check inside that embedded archive; otherwise stat the file
under `resourcesDir/app` and require a regular file. `relativeFile` equals
`file` for the normalized relative paths this model admits. The `mainPath`
computation mirrors the source expression, where `path.join.apply(slice)`
evaluates `path.join` with no arguments (yielding ".") when the slice is
non-empty and "" is used otherwise, and the following
`mainPath += path.join(mainPath, pathParsed.base)` appends the normalized base. -/
def checkFileInPackage (fs : PackageFS) (resourcesDir : FPath) (file : String)
    (messagePrefix : String) (isAsar : Bool) : Except String Unit :=
  let relativeFile := file
  if isAsar then
    if fs.inArchive (resourcesDir ++ ["app.asar"]) relativeFile then Except.ok ()
    else Except.error (messagePrefix ++ " \"" ++ relativeFile ++ "\" not found in the archive")
  else
    let parts := splitPath file
    let dir : FPath := parts.dropLast
    let base := parts.getLastD ""
    if dirIncludesAsar dir then
      let partWithAsarIndex := findAsarIndex dir
      let asarPath := dir.take (partWithAsarIndex + 1)
      let mainPath := (if dir.length > partWithAsarIndex + 1 then "." else "") ++ base
      if fs.inArchive (resourcesDir ++ ["app"] ++ asarPath) mainPath then Except.ok ()
      else Except.error (messagePrefix ++ " \"" ++ mainPath ++ "\" not found in the archive")
    else
      match fs.stat (resourcesDir ++ ["app"] ++ parts) with
      | none =>
        Except.error (messagePrefix ++ " \"" ++ relativeFile ++
          "\" does not exist. Seems like a wrong configuration.")
      | some outStat =>
        if !outStat.isFile then
          Except.error (messagePrefix ++ " \"" ++ relativeFile ++
            "\" is not a file. Seems like a wrong configuration.")
        else Except.ok ()

/-- The entry file checked by the sanity check: `this.info.metadata.main || "index.js"`
(the `||` also replaces an empty string). -/
def entryFile (metadataMain : Option String) : String :=
  match metadataMain with
  | some m => if m = "" then "index.js" else m
  | none => "index.js"

/-- `sanityCheckPackage`: the output directory must exist and be a directory,
then the application entry file and `package.json` are checked in the package. -/
def sanityCheckPackage (fs : PackageFS) (appOutDir resourcesDir : FPath)
    (metadataMain : Option String) (isAsar : Bool) : Except String Unit :=
  match fs.stat appOutDir with
  | none =>
    Except.error ("Output directory \"" ++ joinStr appOutDir ++
      "\" does not exist. Seems like a wrong configuration.")
  | some outStat =>
    if !outStat.isDirectory then
      Except.error ("Output directory \"" ++ joinStr appOutDir ++
        "\" is not a directory. Seems like a wrong configuration.")
    else
      match checkFileInPackage fs resourcesDir (entryFile metadataMain)
          "Application entry file" isAsar with
      | Except.error e => Except.error e
      | Except.ok _ => checkFileInPackage fs resourcesDir "package.json" "Application" isAsar

/-- Whether an `Except String Unit` result is a success. -/
def exOk (e : Except String Unit) : Bool :=
  match e with
  | Except.ok _ => true
  | Except.error _ => false

/-- Success of one file check, stated the way the (amended) spec words it: inside
`app.asar` when archiving was used; inside the embedded archive when archiving
was not used but the directory of the file contains an `.asar` segment; as a regular
file on disk under `resourcesDir/app` otherwise. -/
def specFileCheckOk (fs : PackageFS) (resourcesDir : FPath) (file : String)
    (isAsar : Bool) : Bool :=
  if isAsar then
    fs.inArchive (resourcesDir ++ ["app.asar"]) file
  else
    let parts := splitPath file
    let dir : FPath := parts.dropLast
    if dirIncludesAsar dir then
      let idx := findAsarIndex dir
      fs.inArchive (resourcesDir ++ ["app"] ++ dir.take (idx + 1))
        ((if dir.length > idx + 1 then "." else "") ++ parts.getLastD "")
    else
      match fs.stat (resourcesDir ++ ["app"] ++ parts) with
      | some st => st.isFile
      | none => false

/-! ## Matcher setup in `doPack` (`computeParsedPatterns`, exclude propagation) -/

/-- A `FileMatcher` instance restricted to what the pipeline manipulates: the
destinations its resolved patterns produce (a literal-pattern instance of glob
matching) and the injected exclusion list. -/
structure FileMatcher where
  patterns : List String
  excludePatterns : List String
deriving DecidableEq

/-- The destinations a matcher yields: inclusion patterns filtered by the
injected exclusions (exclusions apply after inclusion). -/
def matcherResults (m : FileMatcher) : List String :=
  m.patterns.filter fun p => !(m.excludePatterns.contains p)

/-- The `computeParsedPatterns` accumulation: every matcher appends its parsed
patterns to the shared `excludePatterns` array. -/
def collectParsedPatterns (ms : List FileMatcher) : List String :=
  ms.foldr (fun m acc => m.patterns ++ acc) []

/-- The matcher state after `doPack` has computed matchers and `copyAppFiles` has
run, per group. -/
structure MatcherSetup where
  extraResourceMatchers : List FileMatcher
  extraFileMatchers : List FileMatcher
  mainMatchers : List FileMatcher
deriving DecidableEq

/-- The matcher wiring of `doPack` and `copyAppFiles`: the parsed patterns of the
extra-resource matchers and then of the extra-file matchers are accumulated into
the single `excludePatterns` list; when that list is non-empty it is assigned to
every main matcher before the first match; the extra matchers themselves are
used for `copyFiles` unchanged. -/
def setupMatchers (extraResourceMatchers extraFileMatchers mainMatchers : List FileMatcher) :
    MatcherSetup :=
  let excludePatterns :=
    collectParsedPatterns extraResourceMatchers ++ collectParsedPatterns extraFileMatchers
  { extraResourceMatchers := extraResourceMatchers
    extraFileMatchers := extraFileMatchers
    mainMatchers :=
      if excludePatterns.length > 0 then
        mainMatchers.map fun m => { m with excludePatterns := excludePatterns }
      else
        mainMatchers }

/-! ## Artifact naming (`computeArtifactName`, `computeSafeArtifactName`) -/

/-- Replace every occurrence of `pat` in a character list, consuming at least one
character per step; `fuel` is initialized to the input length. -/
def replaceAllFuel (pat repl : List Char) : Nat → List Char → List Char
  | 0, s => s
  | _ + 1, [] => []
  | fuel + 1, c :: rest =>
    if !pat.isEmpty && pat.isPrefixOf (c :: rest) then
      repl ++ replaceAllFuel pat repl fuel ((c :: rest).drop pat.length)
    else
      c :: replaceAllFuel pat repl fuel rest

/-- Replace every occurrence of `pat` by `repl` in `s`. -/
def replaceAll (pat repl s : List Char) : List Char :=
  replaceAllFuel pat repl s.length s

/-- The application metadata the artifact namer reads. -/
structure NameContext where
  productName : String
  name : String
  version : String
  isMac : Bool

/-- Modelled from the spec: the macro expander (`util/macroExpander`, outside this
file) substitutes the product-name, package-name, version, architecture and
extension placeholders into the pattern; when the architecture is null the
architecture segment is omitted entirely together with its separator. -/
def expandNamePattern (pattern : String) (archName : Option String)
    (ctx : NameContext) (ext : String) : String :=
  let cs := pattern.data
  let cs :=
    match archName with
    | some a => replaceAll "$\x7barch\x7d".data a.data cs
    | none =>
      replaceAll "-$\x7barch\x7d".data []
        (replaceAll "_$\x7barch\x7d".data []
          (replaceAll "/$\x7barch\x7d".data [] cs))
  let cs := replaceAll "$\x7bname\x7d".data ctx.name.data cs
  let cs := replaceAll "$\x7bproductName\x7d".data ctx.productName.data cs
  let cs := replaceAll "$\x7bversion\x7d".data ctx.version.data cs
  let cs := replaceAll "$\x7bext\x7d".data ext.data cs
  String.mk cs

/-- The extension-specific architecture renaming of `computeArtifactName`:
`Arch[arch]` by default, with x64 rendered `x86_64` for AppImage and rpm and
`amd64` for deb and snap, and ia32 rendered `i386` for deb, AppImage and snap
and `i686` for pacman and rpm. -/
def computeArchName (arch : Option Arch) (ext : String) : Option String :=
  match arch with
  | none => none
  | some a =>
    some
      (if a = Arch.x64 then
        if ext = "AppImage" || ext = "rpm" then "x86_64"
        else if ext = "deb" || ext = "snap" then "amd64"
        else archToString a
      else if a = Arch.ia32 then
        if ext = "deb" || ext = "AppImage" || ext = "snap" then "i386"
        else if ext = "pacman" || ext = "rpm" then "i686"
        else archToString a
      else archToString a)

/-- `computeArtifactName`: renames the architecture per extension and expands the
pattern, passing a null architecture on macOS. -/
def computeArtifactName (pattern : String) (ext : String) (arch : Option Arch)
    (ctx : NameContext) : String :=
  let archName := computeArchName arch ext
  expandNamePattern pattern (if ctx.isMac then none else archName) ctx ext

/-- The safe character predicate of `isSafeGithubName`: `[0-9A-Za-z._-]`. -/
def isSafeNameChar (c : Char) : Bool :=
  c.isAlphanum || c = '.' || c = '_' || c = '-'

/-- `isSafeGithubName`: the regular expression `^[0-9A-Za-z._-]+$` — at least one
character, all from the safe set. -/
def isSafeGithubName (name : String) : Bool :=
  !name.data.isEmpty && name.data.all isSafeNameChar

/-- The default `safePattern` argument of `computeSafeArtifactName`. -/
def defaultSafePattern : String :=
  "$\x7bname\x7d-$\x7bversion\x7d-$\x7barch\x7d.$\x7bext\x7d"

/-- `computeSafeArtifactName`: returns null when the suggested name is non-null
and passes `isSafeGithubName`; otherwise expands `safePattern`, dropping the
architecture when `skipArchIfX64` holds and the architecture is x64. -/
def computeSafeArtifactName (suggestedName : Option String) (ext : String)
    (arch : Option Arch) (skipArchIfX64 : Bool) (safePattern : String)
    (ctx : NameContext) : Option String :=
  if (match suggestedName with
      | some n => isSafeGithubName n
      | none => false) then
    none
  else
    some (computeArtifactName safePattern ext
      (if skipArchIfX64 && arch == some Arch.x64 then none else arch) ctx)

/-! ## Theorems -/

/-- C10: the compression level resolves to "normal" whenever the platform-specific
option is explicitly null (even if the top-level configuration differs); otherwise
to the platform-specific value when set, else the top-level value, else "normal".
The result type is `CompressionLevel`, so it is never null or undefined. -/
theorem compression_resolution : ∀ (p c : NullOr CompressionLevel),
    (p = NullOr.null → compression p c = CompressionLevel.normal)
    ∧ (∀ v, p = NullOr.val v → compression p c = v)
    ∧ (p = NullOr.undef → ∀ v, c = NullOr.val v → compression p c = v)
    ∧ (p = NullOr.undef → (c = NullOr.null ∨ c = NullOr.undef) →
        compression p c = CompressionLevel.normal) := by
  intro p c
  cases p <;> cases c <;> simp [compression]

/-- Witness for `compression_resolution`: an explicit platform-level null yields
"normal" although the top-level configuration requests "maximum". -/
theorem compression_resolution_witness :
    compression NullOr.null (NullOr.val CompressionLevel.maximum) = CompressionLevel.normal :=
  (compression_resolution NullOr.null (NullOr.val CompressionLevel.maximum)).1 rfl

/-- C9: when the caller supplied a prepackaged directory, `doPack` returns at once
and the trace is empty: no stage preparation, no matcher computation, no copy, no
hook, no sanity check and no signing, for every cancellation time and sanity
outcome. -/
theorem doPack_prepackaged_skips_pipeline :
    ∀ (setTime : Nat) (sanityOk : Bool), doPackTrace true setTime sanityOk = [] := by
  intro setTime sanityOk
  simp [doPackTrace]

/-- C5: artifact-name architecture normalization is extension-specific: x64 renders
as "x86_64" for AppImage and rpm and as "amd64" for deb and snap; ia32 renders as
"i386" for deb, AppImage and snap and as "i686" for pacman and rpm; and the pattern
`productName-version-arch.ext` with a 64-bit architecture and ext "deb" expands the
architecture to "amd64" (while ext "rpm" yields the numeric identifier "x86_64"). -/
theorem artifact_arch_naming :
    computeArchName (some Arch.x64) "AppImage" = some "x86_64"
    ∧ computeArchName (some Arch.x64) "rpm" = some "x86_64"
    ∧ computeArchName (some Arch.x64) "deb" = some "amd64"
    ∧ computeArchName (some Arch.x64) "snap" = some "amd64"
    ∧ computeArchName (some Arch.ia32) "deb" = some "i386"
    ∧ computeArchName (some Arch.ia32) "AppImage" = some "i386"
    ∧ computeArchName (some Arch.ia32) "snap" = some "i386"
    ∧ computeArchName (some Arch.ia32) "pacman" = some "i686"
    ∧ computeArchName (some Arch.ia32) "rpm" = some "i686"
    ∧ computeArtifactName "$\x7bproductName\x7d-$\x7bversion\x7d-$\x7barch\x7d.$\x7bext\x7d"
        "deb" (some Arch.x64) ⟨"Foo App", "foo", "1.2.3", false⟩ = "Foo App-1.2.3-amd64.deb"
    ∧ computeArtifactName "$\x7bproductName\x7d-$\x7bversion\x7d-$\x7barch\x7d.$\x7bext\x7d"
        "rpm" (some Arch.x64) ⟨"Foo App", "foo", "1.2.3", false⟩
        = "Foo App-1.2.3-x86_64.rpm" := by
  decide

/-- C7: with archiving disabled and no prepacked asar, `copyAppFiles` takes the
direct-copy strategy whose transformer consults the extra-files transformer first
and falls through to the main transformer whenever that transformer is absent or
returns null. -/
theorem direct_copy_combined_transformer :
    ∀ (transformerForExtraFiles : Option FileTx) (transformer : FileTx) (file : String),
    copyAppFilesStrategy false none transformerForExtraFiles transformer
      = CopyStrategy.direct (combinedTransformer transformerForExtraFiles transformer)
    ∧ ((transformerForExtraFiles = none
          ∨ ∃ g, transformerForExtraFiles = some g ∧ g file = none) →
        combinedTransformer transformerForExtraFiles transformer file = transformer file)
    ∧ (∀ g r, transformerForExtraFiles = some g → g file = some r →
        combinedTransformer transformerForExtraFiles transformer file = some r) := by
  intro tfe tx file
  refine ⟨rfl, ?_, ?_⟩
  · rintro (rfl | ⟨g, rfl, hg⟩) <;> simp [combinedTransformer, *]
  · rintro g r rfl hg
    simp [combinedTransformer, hg]

/-- Witness for `direct_copy_combined_transformer`: with no extra-files transformer
the combined transformer returns exactly the main transformer result. -/
theorem direct_copy_combined_transformer_witness :
    combinedTransformer none (fun _ => some "out") "f" = (fun _ : String => some "out") "f" :=
  (direct_copy_combined_transformer none (fun _ => some "out") "f").2.1 (Or.inl rfl)

/-- C3: for a non-empty target list, when every target is concurrency-safe each
build is scheduled directly on the caller task manager with no wrapper; when at
least one target is not, the whole batch becomes one wrapper task in which the
concurrency-safe targets run on a dedicated sub task manager, are awaited, and
the remaining targets are then built one at a time in declaration order. -/
theorem target_batch_scheduling :
    ∀ (targets : List Target), targets ≠ [] →
    ((∀ t ∈ targets, t.isAsyncSupported = true) →
        packageInDistributableFormat targets
          = PackageSchedule.direct (targets.map fun t => t.id))
    ∧ ((∃ t ∈ targets, t.isAsyncSupported = false) →
        packageInDistributableFormat targets
          = PackageSchedule.wrapped
              ((targets.filter fun t => t.isAsyncSupported).map fun t => t.id)
              ((targets.filter fun t => !t.isAsyncSupported).map fun t => t.id)) := by
  intro ts _
  constructor
  · intro hall
    have hfind : (ts.find? fun it => !it.isAsyncSupported) = none := by
      rw [List.find?_eq_none]
      intro x hx
      simp [hall x hx]
    have hfilter : ts.filter (fun t => t.isAsyncSupported) = ts :=
      List.filter_eq_self.mpr fun a ha => by simp [hall a ha]
    simp [packageInDistributableFormat, hfind, buildAsyncTargets, hfilter]
  · rintro ⟨t, ht, hts⟩
    cases hf : ts.find? (fun it => !it.isAsyncSupported) with
    | none =>
      rw [List.find?_eq_none] at hf
      have := hf t ht
      simp [hts] at this
    | some u =>
      simp [packageInDistributableFormat, hf, buildAsyncTargets]

/-- Witness for `target_batch_scheduling`: a single concurrency-safe target is
scheduled directly, with no wrapper task. -/
theorem target_batch_scheduling_witness :
    packageInDistributableFormat [⟨0, true⟩] = PackageSchedule.direct [0] :=
  (target_batch_scheduling [⟨0, true⟩] (by decide)).1 (by decide)

/-- C1 fails as stated: a token set at time 8 — after the main file copy (step 2)
and before the sanity check (step 9), namely while the after-pack hook runs — is
inside the claimed window, yet both checkpoints (steps 3 and 7) observed the token
unset, so the pipeline does not return early: the after-pack hook, the sanity
check and the signing call all appear in the trace. -/
theorem cancellation_window_counterexample :
    3 ≤ 8 ∧ 8 ≤ 9
    ∧ PackEvent.afterPackHook ∈ doPackTrace false 8 true
    ∧ PackEvent.sanityCheck ∈ doPackTrace false 8 true
    ∧ PackEvent.signApp ∈ doPackTrace false 8 true := by
  decide

/-- C1 amended: if the token becomes set after the main file copy and no later
than the second checkpoint (the one right after the extra-file copy), the pipeline
returns early from a checkpoint and performs no after-pack hook, no sanity check
and no signing; the token is read at exactly the two checkpoints — once when the
run stops at the first one, twice otherwise. A token set after the second
checkpoint is never observed. -/
theorem doPack_cancellation_checkpoints :
    ∀ (setTime : Nat) (sanityOk : Bool),
    (3 ≤ setTime → setTime ≤ 7 →
        PackEvent.afterPackHook ∉ doPackTrace false setTime sanityOk
        ∧ PackEvent.sanityCheck ∉ doPackTrace false setTime sanityOk
        ∧ PackEvent.signApp ∉ doPackTrace false setTime sanityOk
        ∧ (doPackTrace false setTime sanityOk).getLast? = some (PackEvent.checkCancel true))
    ∧ checkCount (doPackTrace false setTime sanityOk) = (if setTime ≤ 3 then 1 else 2) := by
  intro setTime sanityOk
  by_cases h3 : setTime ≤ 3
  · have hc3 : cancelledAt setTime 3 = true := by simp [cancelledAt, h3]
    constructor
    · intro _ _
      rw [doPackTrace, if_neg (by simp), if_pos hc3]
      decide
    · rw [doPackTrace, if_neg (by simp), if_pos hc3, if_pos h3]
      decide
  · have hc3 : cancelledAt setTime 3 = false := by simp [cancelledAt, h3]
    by_cases h7 : setTime ≤ 7
    · have hc7 : cancelledAt setTime 7 = true := by simp [cancelledAt, h7]
      constructor
      · intro _ _
        rw [doPackTrace, if_neg (by simp), if_neg (by simp [hc3]), if_pos hc7]
        decide
      · rw [doPackTrace, if_neg (by simp), if_neg (by simp [hc3]), if_pos hc7, if_neg h3]
        decide
    · have hc7 : cancelledAt setTime 7 = false := by simp [cancelledAt, h7]
      constructor
      · intro _ hle
        exact absurd hle h7
      · cases sanityOk
        · rw [doPackTrace, if_neg (by simp), if_neg (by simp [hc3]), if_neg (by simp [hc7]),
            if_neg (by simp), if_neg h3]
          decide
        · rw [doPackTrace, if_neg (by simp), if_neg (by simp [hc3]), if_neg (by simp [hc7]),
            if_pos rfl, if_neg h3]
          decide

/-- Witness for `doPack_cancellation_checkpoints`: a token set at time 5 (between
the two checkpoints) suppresses the after-pack hook, the sanity check and the
signing call. -/
theorem doPack_cancellation_checkpoints_witness :
    PackEvent.afterPackHook ∉ doPackTrace false 5 true
    ∧ PackEvent.sanityCheck ∉ doPackTrace false 5 true
    ∧ PackEvent.signApp ∉ doPackTrace false 5 true
    ∧ (doPackTrace false 5 true).getLast? = some (PackEvent.checkCancel true) :=
  (doPack_cancellation_checkpoints 5 true).1 (by decide) (by decide)

/-- C8 fails as stated: for a non-Electron-based framework `computeAsarOptions`
returns null before looking at the deprecated options, so a configuration that
still contains "asar-unpack" raises no error. -/
theorem computeAsarOptions_counterexample :
    computeAsarOptions
        ⟨false, true, false, AsarValue.undef, AsarValue.undef⟩ = Except.ok none
    ∧ (⟨false, true, false, AsarValue.undef, AsarValue.undef⟩ :
          AsarConfigInput).deprecatedAsarUnpack = true := by
  exact ⟨rfl, rfl⟩

/-- C8 amended: for an Electron-based framework, `computeAsarOptions` raises a
user-fixable error exactly when the configuration contains "asar-unpack" or
"asar-unpack-dir", or the effective asar setting (platform-specific unless
null/absent, else top-level) is an object carrying `unpackDir` or `unpack`;
with no deprecated option present it returns null when the effective setting is
false, the empty options object when it is absent, null or true, and a copy of
the supplied object otherwise. For a non-Electron-based framework it returns
null without examining the deprecated options. -/
theorem computeAsarOptions_characterization :
    ∀ c : AsarConfigInput,
    (c.isElectronBasedFramework = false → computeAsarOptions c = Except.ok none)
    ∧ (isErr (computeAsarOptions c) = true ↔
        c.isElectronBasedFramework = true
        ∧ (c.deprecatedAsarUnpack = true ∨ c.deprecatedAsarUnpackDir = true
            ∨ ∃ o, effectiveAsar c = AsarValue.obj o
                ∧ (o.unpackDir.isSome = true ∨ o.unpack.isSome = true)))
    ∧ (c.isElectronBasedFramework = true → c.deprecatedAsarUnpack = false →
        c.deprecatedAsarUnpackDir = false →
        (effectiveAsar c = AsarValue.bool false → computeAsarOptions c = Except.ok none)
        ∧ ((effectiveAsar c = AsarValue.undef ∨ effectiveAsar c = AsarValue.null
              ∨ effectiveAsar c = AsarValue.bool true) →
            computeAsarOptions c = Except.ok (some emptyAsarOptions))
        ∧ (∀ o, effectiveAsar c = AsarValue.obj o → o.unpack = none → o.unpackDir = none →
            computeAsarOptions c = Except.ok (some o))) := by
  intro c
  refine ⟨?_, ?_, ?_⟩
  · intro h
    simp [computeAsarOptions, h]
  · cases hel : c.isElectronBasedFramework with
    | false => simp [computeAsarOptions, isErr, hel]
    | true =>
      cases hd1 : c.deprecatedAsarUnpack with
      | true => simp [computeAsarOptions, isErr, hel, hd1]
      | false =>
        cases hd2 : c.deprecatedAsarUnpackDir with
        | true => simp [computeAsarOptions, isErr, hel, hd1, hd2]
        | false =>
          cases hea : effectiveAsar c with
          | undef => simp [computeAsarOptions, isErr, hel, hd1, hd2, hea]
          | null => simp [computeAsarOptions, isErr, hel, hd1, hd2, hea]
          | bool b => cases b <;> simp [computeAsarOptions, isErr, hel, hd1, hd2, hea]
          | obj o =>
            cases ho2 : o.unpackDir <;> cases ho1 : o.unpack <;>
              simp [computeAsarOptions, isErr, hel, hd1, hd2, hea, ho1, ho2]
  · intro hel hd1 hd2
    refine ⟨?_, ?_, ?_⟩
    · intro hea
      simp [computeAsarOptions, hel, hd1, hd2, hea]
    · rintro (hea | hea | hea) <;> simp [computeAsarOptions, hel, hd1, hd2, hea]
    · intro o hea hu hud
      simp [computeAsarOptions, hel, hd1, hd2, hea, hu, hud]

/-- Witness for `computeAsarOptions_characterization`: an Electron-based framework
with no deprecated options and asar set to true at the top level yields the empty
options object. -/
theorem computeAsarOptions_characterization_witness :
    computeAsarOptions ⟨true, false, false, AsarValue.undef, AsarValue.bool true⟩
      = Except.ok (some emptyAsarOptions) :=
  ((computeAsarOptions_characterization
      ⟨true, false, false, AsarValue.undef, AsarValue.bool true⟩).2.2
      rfl rfl rfl).2.1 (by decide)

/-- The safe-name test accepts a name exactly when it is non-empty and all its
characters come from `[0-9A-Za-z._-]` (the `+` of the regular expression
requires at least one character). -/
theorem isSafeGithubName_iff (n : String) :
    isSafeGithubName n = true ↔ n.data ≠ [] ∧ n.data.all isSafeNameChar = true := by
  simp [isSafeGithubName, List.isEmpty_iff]

/-- C6 fails as stated: the empty suggested name consists only of characters from
the safe set (vacuously), yet `computeSafeArtifactName` does not return null for
it — the regular expression requires at least one character. -/
theorem safe_name_empty_counterexample :
    "".data.all isSafeNameChar = true
    ∧ computeSafeArtifactName (some "") "zip" (some Arch.x64) true defaultSafePattern
        ⟨"Foo App", "foo", "1.2.3", false⟩ ≠ none := by
  decide

/-- C6 amended: `computeSafeArtifactName` returns null exactly when the suggested
name is non-null, non-empty and consists only of characters in `[0-9A-Za-z._-]`;
otherwise it expands the safe pattern, stripping the architecture (null
architecture) when `skipArchIfX64` holds and the architecture is x64. -/
theorem computeSafeArtifactName_characterization :
    ∀ (suggestedName : Option String) (ext : String) (arch : Option Arch)
      (skipArchIfX64 : Bool) (safePattern : String) (ctx : NameContext),
    (computeSafeArtifactName suggestedName ext arch skipArchIfX64 safePattern ctx = none ↔
      ∃ n, suggestedName = some n ∧ n.data ≠ [] ∧ n.data.all isSafeNameChar = true)
    ∧ (computeSafeArtifactName suggestedName ext arch skipArchIfX64 safePattern ctx ≠ none →
        computeSafeArtifactName suggestedName ext arch skipArchIfX64 safePattern ctx
          = some (computeArtifactName safePattern ext
              (if skipArchIfX64 && arch == some Arch.x64 then none else arch) ctx)) := by
  intro sn ext arch skip pat ctx
  constructor
  · have base : computeSafeArtifactName sn ext arch skip pat ctx = none ↔
        ∃ n, sn = some n ∧ isSafeGithubName n = true := by
      cases sn with
      | none => simp [computeSafeArtifactName]
      | some n => cases h : isSafeGithubName n <;> simp [computeSafeArtifactName, h]
    rw [base]
    exact exists_congr fun n => and_congr_right fun _ => isSafeGithubName_iff n
  · intro hne
    cases sn with
    | none => rfl
    | some n =>
      cases h : isSafeGithubName n with
      | true => exact absurd (by simp [computeSafeArtifactName, h]) hne
      | false => simp [computeSafeArtifactName, h]

/-- Witness for `computeSafeArtifactName_characterization`: a suggested name with
a space falls back to the expanded safe pattern with the x64 architecture
stripped. -/
theorem computeSafeArtifactName_characterization_witness :
    computeSafeArtifactName (some "a b") "zip" (some Arch.x64) true defaultSafePattern
        ⟨"Foo App", "foo", "1.2.3", false⟩
      = some (computeArtifactName defaultSafePattern "zip"
          (if true && (some Arch.x64 == some Arch.x64) then none else some Arch.x64)
          ⟨"Foo App", "foo", "1.2.3", false⟩) :=
  (computeSafeArtifactName_characterization (some "a b") "zip" (some Arch.x64) true
      defaultSafePattern ⟨"Foo App", "foo", "1.2.3", false⟩).2 (by decide)

/-- C4 fails as stated: the destination "x" is produced by both the extra-resource
and the extra-file matcher after the matcher setup of the pipeline, because the
collected patterns are installed only on the main-copy matchers and the extra
matchers are used for copying unchanged — nothing is cross-propagated between
them. -/
theorem extra_matcher_exclusion_counterexample :
    (setupMatchers [⟨["x"], []⟩] [⟨["x"], []⟩] [⟨["m"], []⟩]).extraResourceMatchers
        = [⟨["x"], []⟩]
    ∧ (setupMatchers [⟨["x"], []⟩] [⟨["x"], []⟩] [⟨["m"], []⟩]).extraFileMatchers
        = [⟨["x"], []⟩]
    ∧ "x" ∈ matcherResults ⟨["x"], []⟩ := by
  decide

/-- C4 amended: `doPack` accumulates the compiled patterns of the extra-resource
matchers and then of the extra-file matchers into one exclusion list, which
(when non-empty) is installed on every main-copy matcher before the first match;
the extra matchers themselves receive no cross-exclusions and are used
unchanged, so it is the main-copy results that never contain a destination
claimed by either extra matcher group. -/
theorem matcher_exclusion_propagation :
    ∀ (er ef mm : List FileMatcher),
    (setupMatchers er ef mm).extraResourceMatchers = er
    ∧ (setupMatchers er ef mm).extraFileMatchers = ef
    ∧ (collectParsedPatterns er ++ collectParsedPatterns ef ≠ [] →
        ∀ m ∈ (setupMatchers er ef mm).mainMatchers,
          m.excludePatterns = collectParsedPatterns er ++ collectParsedPatterns ef)
    ∧ (∀ m ∈ (setupMatchers er ef mm).mainMatchers, ∀ d ∈ matcherResults m,
        d ∉ collectParsedPatterns er ∧ d ∉ collectParsedPatterns ef) := by
  intro er ef mm
  refine ⟨rfl, rfl, ?_, ?_⟩
  · intro hne m hm
    have hlen : 0 < (collectParsedPatterns er ++ collectParsedPatterns ef).length :=
      List.length_pos.mpr hne
    simp only [setupMatchers] at hm
    rw [if_pos hlen] at hm
    obtain ⟨m0, _, rfl⟩ := List.mem_map.mp hm
    rfl
  · intro m hm d hd
    by_cases hne : collectParsedPatterns er ++ collectParsedPatterns ef = []
    · obtain ⟨her, hef⟩ := List.append_eq_nil.mp hne
      simp [her, hef]
    · have hlen : 0 < (collectParsedPatterns er ++ collectParsedPatterns ef).length :=
        List.length_pos.mpr hne
      simp only [setupMatchers] at hm
      rw [if_pos hlen] at hm
      obtain ⟨m0, _, rfl⟩ := List.mem_map.mp hm
      have hdm := List.mem_filter.mp hd
      have hnc : d ∉ collectParsedPatterns er ++ collectParsedPatterns ef := by
        simpa using hdm.2
      rw [List.mem_append] at hnc
      push_neg at hnc
      exact hnc

/-- Witness for `matcher_exclusion_propagation`: with one extra-resource pattern
"r" and one extra-file pattern "f", the main matcher keeps "m" and that kept
destination belongs to the patterns of neither extra group. -/
theorem matcher_exclusion_propagation_witness :
    "m" ∉ collectParsedPatterns [(⟨["r"], []⟩ : FileMatcher)]
    ∧ "m" ∉ collectParsedPatterns [(⟨["f"], []⟩ : FileMatcher)] :=
  (matcher_exclusion_propagation [⟨["r"], []⟩] [⟨["f"], []⟩] [⟨["r", "m"], []⟩]).2.2.2
    ⟨["r", "m"], ["r", "f"]⟩ (by decide) "m" (by decide)

/-- Success of one `checkFileInPackage` call coincides with the spec-side
three-way file check. -/
theorem exOk_checkFileInPackage (fs : PackageFS) (resourcesDir : FPath) (file : String)
    (messagePrefix : String) (isAsar : Bool) :
    exOk (checkFileInPackage fs resourcesDir file messagePrefix isAsar)
      = specFileCheckOk fs resourcesDir file isAsar := by
  cases isAsar with
  | true =>
    simp only [checkFileInPackage, specFileCheckOk, if_true]
    split <;> simp_all [exOk]
  | false =>
    simp only [checkFileInPackage, specFileCheckOk, Bool.false_eq_true, if_false]
    by_cases hdir : dirIncludesAsar (splitPath file).dropLast = true
    · rw [if_pos hdir, if_pos hdir]
      split <;> (split <;> simp_all [exOk])
    · rw [if_neg hdir, if_neg hdir]
      cases hst : fs.stat (resourcesDir ++ ["app"] ++ splitPath file) with
      | none => simp [exOk]
      | some st => cases hf : st.isFile <;> simp [exOk, hf]

/-- A filesystem on which the C2 counterexample is evaluated: the output
directory exists, `package.json` is a regular file on disk, the entry file is
absent from the disk, but the embedded archive `a.asar` reports it present. -/
def asarInDirFS : PackageFS where
  stat := fun p =>
    if p = ["out"] then some { isFile := false, isDirectory := true }
    else if p = ["res", "app", "package.json"] then some { isFile := true, isDirectory := false }
    else none
  inArchive := fun a f => a == ["res", "app", "a.asar"] && f == "main.js"

/-- C2 fails as stated: with archiving disabled and `metadata.main` set to
"a.asar/main.js", the sanity check succeeds although the entry file does not
exist on disk under `resources/app` — because the directory part contains
".asar" the check is delegated to the embedded archive instead of the disk, so
"on disk otherwise" does not hold. -/
theorem sanityCheck_on_disk_counterexample :
    exOk (sanityCheckPackage asarInDirFS ["out"] ["res"] (some "a.asar/main.js") false) = true
    ∧ asarInDirFS.stat (["res"] ++ ["app"] ++ splitPath (entryFile (some "a.asar/main.js")))
        = none := by
  decide

/-- C2 amended: the sanity check succeeds exactly when the output directory
exists and is a directory and both the entry file (`metadata.main`, defaulting
to `index.js`) and `package.json` pass the file check — inside `app.asar` when
archiving was used; inside the embedded archive when archiving was not used but
the directory of the file contains an `.asar` segment; as a regular file on disk
otherwise — any failure raising an error; and in `doPack` the sanity check
strictly precedes `signApp`, so a failed check means signing is never called. -/
theorem sanityCheck_characterization :
    ∀ (fs : PackageFS) (appOutDir resourcesDir : FPath) (metadataMain : Option String)
      (isAsar : Bool),
    (exOk (sanityCheckPackage fs appOutDir resourcesDir metadataMain isAsar) = true ↔
      (∃ st, fs.stat appOutDir = some st ∧ st.isDirectory = true)
      ∧ specFileCheckOk fs resourcesDir (entryFile metadataMain) isAsar = true
      ∧ specFileCheckOk fs resourcesDir "package.json" isAsar = true)
    ∧ (∀ (setTime : Nat) (sanityOk : Bool),
        PackEvent.signApp ∈ doPackTrace false setTime sanityOk →
        sanityOk = true
        ∧ (doPackTrace false setTime sanityOk).indexOf PackEvent.sanityCheck
            < (doPackTrace false setTime sanityOk).indexOf PackEvent.signApp) := by
  intro fs appOutDir resourcesDir metadataMain isAsar
  constructor
  · cases hst : fs.stat appOutDir with
    | none => simp [sanityCheckPackage, hst, exOk]
    | some st =>
      cases hd : st.isDirectory with
      | false => simp [sanityCheckPackage, hst, hd, exOk]
      | true =>
        have h1 := exOk_checkFileInPackage fs resourcesDir (entryFile metadataMain)
          "Application entry file" isAsar
        have h2 := exOk_checkFileInPackage fs resourcesDir "package.json" "Application" isAsar
        cases hc1 : checkFileInPackage fs resourcesDir (entryFile metadataMain)
            "Application entry file" isAsar with
        | error e =>
          rw [hc1] at h1
          simp [sanityCheckPackage, hst, hd, hc1, exOk, ← h1]
        | ok u =>
          rw [hc1] at h1
          simp [sanityCheckPackage, hst, hd, hc1, exOk, ← h1, ← h2]
  · intro setTime sanityOk h
    by_cases h3 : setTime ≤ 3
    · have hc3 : cancelledAt setTime 3 = true := by simp [cancelledAt, h3]
      rw [doPackTrace, if_neg (by simp), if_pos hc3] at h
      exact absurd h (by decide)
    · have hc3 : cancelledAt setTime 3 = false := by simp [cancelledAt, h3]
      by_cases h7 : setTime ≤ 7
      · have hc7 : cancelledAt setTime 7 = true := by simp [cancelledAt, h7]
        rw [doPackTrace, if_neg (by simp), if_neg (by simp [hc3]), if_pos hc7] at h
        exact absurd h (by decide)
      · have hc7 : cancelledAt setTime 7 = false := by simp [cancelledAt, h7]
        cases sanityOk with
        | false =>
          rw [doPackTrace, if_neg (by simp), if_neg (by simp [hc3]), if_neg (by simp [hc7]),
            if_neg (by simp)] at h
          exact absurd h (by decide)
        | true =>
          refine ⟨rfl, ?_⟩
          rw [doPackTrace, if_neg (by simp), if_neg (by simp [hc3]), if_neg (by simp [hc7]),
            if_pos rfl]
          decide

/-- A filesystem on which every sanity-check component passes with archiving
disabled: output directory, entry file and package descriptor all on disk. -/
def allOnDiskFS : PackageFS where
  stat := fun p =>
    if p = ["out"] then some { isFile := false, isDirectory := true }
    else if p = ["res", "app", "index.js"] then some { isFile := true, isDirectory := false }
    else if p = ["res", "app", "package.json"] then some { isFile := true, isDirectory := false }
    else none
  inArchive := fun _ _ => false

/-- Witness for `sanityCheck_characterization`: in an uncancelled run the sanity
check occurs strictly before the signing call, and the characterization applied
to a complete on-disk layout yields a passing check. -/
theorem sanityCheck_characterization_witness :
    ((true = true
      ∧ (doPackTrace false 100 true).indexOf PackEvent.sanityCheck
          < (doPackTrace false 100 true).indexOf PackEvent.signApp)
    ∧ exOk (sanityCheckPackage allOnDiskFS ["out"] ["res"] none false) = true) :=
  ⟨(sanityCheck_characterization allOnDiskFS ["out"] ["res"] none false).2 100 true (by decide),
   (sanityCheck_characterization allOnDiskFS ["out"] ["res"] none false).1.mpr
     ⟨⟨{ isFile := false, isDirectory := true }, by decide, rfl⟩, by decide, by decide⟩⟩

end EB
